import Mathlib

/-!
# Ledger & payment core of the banking microservice, shallowly embedded

The transaction service (ledger store) and payment service are embedded as
pure functions over explicit state.  Monetary amounts are integers in cents
(the source stores `DECIMAL(15,2)` values and validates two-decimal
precision, so every amount is an exact multiple of 0.01); timestamps are
integers in seconds.  SQL tables become lists: `account_balances` is an
association list keyed by account id, `transactions` and `payments` are
append-only lists, `account_ownership` is a list of (account id, user id)
pairs.  A request handler that issues `ROLLBACK` leaves the state unchanged;
one that commits returns the updated state.
-/

namespace Banking

/-- Decidable equality on `Except`, so concrete handler outcomes can be
checked by `decide`. -/
instance {ε : Type _} {α : Type _} [DecidableEq ε] [DecidableEq α] :
    DecidableEq (Except ε α)
  | .error a, .error b =>
    if h : a = b then .isTrue (by rw [h])
    else .isFalse (fun hc => by cases hc; exact h rfl)
  | .error _, .ok _ => .isFalse (fun hc => by cases hc)
  | .ok _, .error _ => .isFalse (fun hc => by cases hc)
  | .ok a, .ok b =>
    if h : a = b then .isTrue (by rw [h])
    else .isFalse (fun hc => by cases hc; exact h rfl)

/-- `transaction_type` column: `'debit' | 'credit'`. -/
inductive Direction
  | debit
  | credit
deriving DecidableEq, Repr

/-- A row of the `transactions` table (a ledger entry).  Entry, reference and
account identifiers are abstracted to `Nat`. -/
structure LedgerEntry where
  entryId : Nat
  accountId : Nat
  direction : Direction
  amount : Int
  description : String
  referenceId : Option Nat
deriving DecidableEq, Repr

/-- The `account_balances` table: one (account_id, balance) row per account. -/
abbrev Balances := List (Nat × Int)

/-- The `account_ownership` table: (account_id, user_id) rows. -/
abbrev Ownership := List (Nat × Nat)

/-- `SELECT balance FROM account_balances WHERE account_id = $1`. -/
def lookupBalance : Balances → Nat → Option Int
  | [], _ => none
  | (k, v) :: rest, a => if k = a then some v else lookupBalance rest a

/-- The balance of an account, with a missing row read as zero. -/
def balanceOr0 (bs : Balances) (a : Nat) : Int :=
  (lookupBalance bs a).getD 0

/-- `INSERT INTO account_balances (account_id, balance) VALUES ($1, insVal)
ON CONFLICT (account_id) DO UPDATE SET balance = account_balances.balance + delta`:
when a row for `a` exists its balance moves by `delta` (an atomic increment at
the storage layer), otherwise a fresh row with balance `insVal` is inserted. -/
def upsertBalance : Balances → Nat → Int → Int → Balances
  | [], a, insVal, _ => [(a, insVal)]
  | (k, v) :: rest, a, insVal, delta =>
    if k = a then (k, v + delta) :: rest
    else (k, v) :: upsertBalance rest a insVal delta

/-- `SELECT user_id FROM account_ownership WHERE account_id = $1 AND user_id = $2`
returned at least one row. -/
def ownsAccount (own : Ownership) (accountId userId : Nat) : Bool :=
  own.contains (accountId, userId)

/-- The transaction service's error outcomes (HTTP 400/403 bodies). -/
inductive TxError
  | validationFailed
  | accessDenied
  | accountNotFound
  | insufficientFunds
deriving DecidableEq, Repr

/-- `verifyAccountBalance(accountId, amount, type)`: reads the balance row and,
for a debit, rejects when the current balance is strictly below the amount
(`currentBalance.lt(transactionAmount)`). -/
def verifyAccountBalance (bs : Balances) (accountId : Nat) (amount : Int)
    (type : Direction) : Except TxError Int :=
  match lookupBalance bs accountId with
  | none => .error .accountNotFound
  | some b =>
    if type = Direction.debit ∧ b < amount then .error .insufficientFunds
    else .ok b

/-- Body of `POST /` (single-leg transaction) after Joi validation. -/
structure TxRequest where
  accountId : Nat
  amount : Int
  type : Direction
  description : String
  referenceId : Option Nat
deriving DecidableEq, Repr

/-- `transactionSchema`: positive integer account id and positive amount. -/
def validTxRequest (r : TxRequest) : Bool :=
  0 < r.accountId && 0 < r.amount

/-- Body of `POST /transfer` after Joi validation. -/
structure TransferRequest where
  fromAccountId : Nat
  toAccountId : Nat
  amount : Int
  description : String
deriving DecidableEq, Repr

/-- `transferSchema`: positive integer account ids and positive amount. -/
def validTransferRequest (r : TransferRequest) : Bool :=
  0 < r.fromAccountId && 0 < r.toAccountId && 0 < r.amount

/-- State owned by the transaction service: the balances table and the
append-only ledger of entries. -/
structure LedgerState where
  balances : Balances
  entries : List LedgerEntry
deriving DecidableEq, Repr

/-- The empty database the service starts from. -/
def LedgerState.initial : LedgerState := ⟨[], []⟩

/-- The signed value of an entry: credits count positive, debits negative. -/
def signedAmount (e : LedgerEntry) : Int :=
  match e.direction with
  | .credit => e.amount
  | .debit => -e.amount

/-- Signed sum of all ledger entries recorded against account `a`. -/
def signedSum (entries : List LedgerEntry) (a : Nat) : Int :=
  ((entries.filter (fun e => e.accountId == a)).map signedAmount).sum

/-- The signed balance delta a single-leg transaction applies
(`type === 'credit' ? amount : -amount`). -/
def txDelta (type : Direction) (amount : Int) : Int :=
  match type with
  | .credit => amount
  | .debit => -amount

/-- The `transactions` row `POST /` inserts. -/
def txEntry (r : TxRequest) (entryId : Nat) : LedgerEntry :=
  ⟨entryId, r.accountId, r.type, r.amount, r.description, r.referenceId⟩

/-- The committed effect of a successful `POST /`: one entry appended and the
balance row upserted with the signed delta (insert value and update delta are
both the signed amount). -/
def applyTx (st : LedgerState) (r : TxRequest) (entryId : Nat) : LedgerState :=
  { balances := upsertBalance st.balances r.accountId
      (txDelta r.type r.amount) (txDelta r.type r.amount),
    entries := st.entries ++ [txEntry r entryId] }

/-- `POST /` (create transaction): Joi validation, ownership check, balance
check for debits only, then insert the entry and upsert the balance, all
committed together (the route wraps them in one SQL transaction and rolls
back on any failure). -/
def createTransaction (own : Ownership) (st : LedgerState) (userId : Nat)
    (r : TxRequest) (entryId : Nat) : Except TxError (LedgerState × LedgerEntry) :=
  if validTxRequest r then
    if ownsAccount own r.accountId userId then
      match r.type with
      | .debit =>
        match verifyAccountBalance st.balances r.accountId r.amount .debit with
        | .error e => .error e
        | .ok _ => .ok (applyTx st r entryId, txEntry r entryId)
      | .credit => .ok (applyTx st r entryId, txEntry r entryId)
    else .error .accessDenied
  else .error .validationFailed

/-- The debit leg `POST /transfer` inserts on the source account. -/
def transferDebitEntry (r : TransferRequest) (transferId debitEntryId : Nat) :
    LedgerEntry :=
  ⟨debitEntryId, r.fromAccountId, .debit, r.amount,
    "Transfer: " ++ r.description, some transferId⟩

/-- The credit leg `POST /transfer` inserts on the destination account. -/
def transferCreditEntry (r : TransferRequest) (transferId creditEntryId : Nat) :
    LedgerEntry :=
  ⟨creditEntryId, r.toAccountId, .credit, r.amount,
    "Transfer received: " ++ r.description, some transferId⟩

/-- The committed effect of a successful `POST /transfer`: both legs appended,
the source row upserted with `VALUES ($1, amount) ... balance - amount` and the
destination row with `VALUES ($1, amount) ... balance + amount`. -/
def applyTransfer (st : LedgerState) (r : TransferRequest)
    (transferId debitEntryId creditEntryId : Nat) : LedgerState :=
  { balances :=
      upsertBalance
        (upsertBalance st.balances r.fromAccountId r.amount (-r.amount))
        r.toAccountId r.amount r.amount,
    entries := st.entries ++
      [transferDebitEntry r transferId debitEntryId,
       transferCreditEntry r transferId creditEntryId] }

/-- `POST /transfer`: Joi validation, source-account ownership check, the
`verifyAccountBalance` debit check on the source account only, then both
entry inserts and both balance upserts committed as one SQL transaction.  On
any failure the route rolls back, leaving the database unchanged. -/
def transfer (own : Ownership) (st : LedgerState) (userId : Nat)
    (r : TransferRequest) (transferId debitEntryId creditEntryId : Nat) :
    Except TxError (LedgerState × LedgerEntry × LedgerEntry) :=
  if validTransferRequest r then
    if ownsAccount own r.fromAccountId userId then
      match verifyAccountBalance st.balances r.fromAccountId r.amount .debit with
      | .error e => .error e
      | .ok _ =>
        .ok (applyTransfer st r transferId debitEntryId creditEntryId,
          transferDebitEntry r transferId debitEntryId,
          transferCreditEntry r transferId creditEntryId)
    else .error .accessDenied
  else .error .validationFailed

/-- A committed client operation against the transaction service. -/
inductive LedgerOp
  | tx (userId : Nat) (r : TxRequest) (entryId : Nat)
  | xfer (userId : Nat) (r : TransferRequest)
      (transferId debitEntryId creditEntryId : Nat)

/-- Run one operation: a failing request rolls back and leaves the state as
it was; a successful one commits its effect. -/
def applyLedgerOp (own : Ownership) (st : LedgerState) : LedgerOp → LedgerState
  | .tx u r e =>
    match createTransaction own st u r e with
    | .ok (st', _) => st'
    | .error _ => st
  | .xfer u r t d c =>
    match transfer own st u r t d c with
    | .ok (st', _, _) => st'
    | .error _ => st

/-- Run a sequence of operations in order. -/
def runLedgerOps (own : Ownership) (st : LedgerState) (ops : List LedgerOp) :
    LedgerState :=
  ops.foldl (applyLedgerOp own) st

example :
    transfer [(1, 7)] ⟨[(1, 1000)], []⟩ 7 ⟨1, 2, 400, "rent"⟩ 90 91 92 =
      .ok (⟨[(1, 600), (2, 400)],
        [⟨91, 1, .debit, 400, "Transfer: rent", some 90⟩,
         ⟨92, 2, .credit, 400, "Transfer received: rent", some 90⟩]⟩,
        ⟨91, 1, .debit, 400, "Transfer: rent", some 90⟩,
        ⟨92, 2, .credit, 400, "Transfer received: rent", some 90⟩) := by
  decide

example :
    transfer [(1, 7)] ⟨[(1, 1000)], []⟩ 7 ⟨1, 2, 1500, "too much"⟩ 90 91 92 =
      .error .insufficientFunds := by
  decide

/-! ## Concurrent transfers

`POST /transfer` performs its funds check through `verifyAccountBalance`,
which reads the balance over a separate pool connection (outside the
handler's own SQL transaction), and only later commits the entry inserts and
the atomic balance increments as one unit.  Two concurrent requests are
therefore modelled as threads with two atomic steps each: a *check* step
that reads the committed balances, and a *commit* step that applies
`applyTransfer` atomically (the storage layer's row locks serialize the
increments, so no delta is lost).  A scheduler word chooses which thread
steps next. -/

/-- The pre-commit part of `POST /transfer`: validation, source ownership and
the `verifyAccountBalance` debit check, all reads. -/
def transferCheck (own : Ownership) (bs : Balances) (userId : Nat)
    (r : TransferRequest) : Bool :=
  validTransferRequest r && ownsAccount own r.fromAccountId userId &&
    (match verifyAccountBalance bs r.fromAccountId r.amount .debit with
     | .ok _ => true
     | .error _ => false)

/-- Progress of one in-flight transfer request. -/
inductive ThreadPhase
  | ready
  | checkedOk
  | finished (success : Bool)
deriving DecidableEq, Repr

/-- One in-flight `POST /transfer` request. -/
structure ConcThread where
  userId : Nat
  req : TransferRequest
  transferId : Nat
  debitEntryId : Nat
  creditEntryId : Nat
  phase : ThreadPhase
deriving DecidableEq, Repr

/-- One atomic step of a request: `ready` runs the check against the
currently committed balances (a failed check responds and rolls back with no
effect); `checkedOk` commits the whole transfer body atomically. -/
def stepThread (own : Ownership) (st : LedgerState) (t : ConcThread) :
    ConcThread × LedgerState :=
  match t.phase with
  | .ready =>
    if transferCheck own st.balances t.userId t.req then
      ({ t with phase := .checkedOk }, st)
    else
      ({ t with phase := .finished false }, st)
  | .checkedOk =>
    ({ t with phase := .finished true },
      applyTransfer st t.req t.transferId t.debitEntryId t.creditEntryId)
  | .finished _ => (t, st)

/-- Shared ledger plus two concurrent transfer requests. -/
structure ConcState where
  ledger : LedgerState
  th1 : ConcThread
  th2 : ConcThread
deriving DecidableEq, Repr

/-- Step the thread the scheduler picks (`false` = first, `true` = second). -/
def schedStep (own : Ownership) (s : ConcState) (pick : Bool) : ConcState :=
  if pick then
    let (t', l') := stepThread own s.ledger s.th2
    { s with th2 := t', ledger := l' }
  else
    let (t', l') := stepThread own s.ledger s.th1
    { s with th1 := t', ledger := l' }

/-- Run the two requests under a given interleaving. -/
def runSchedule (own : Ownership) (s : ConcState) (sched : List Bool) :
    ConcState :=
  sched.foldl (schedStep own) s

/-! ## Payment service -/

/-- Payment state machine states (`payments.status`). -/
inductive PaymentStatus
  | scheduled
  | pendingReview
  | processing
  | completed
  | failed
  | cancelled
deriving DecidableEq, Repr

/-- A row of the `payments` table. -/
structure Payment where
  paymentId : Nat
  fromAccountId : Nat
  toAccountId : Option Nat
  amount : Int
  status : PaymentStatus
  scheduledAt : Option Int
  riskScore : Nat
  createdAt : Int
deriving DecidableEq, Repr

/-- Result of `detectFraud`. -/
structure FraudResult where
  riskScore : Nat
  riskFactors : List String
  requiresReview : Bool
deriving DecidableEq, Repr

/-- `paymentData.amount > 10000` (dollars), i.e. 1 000 000 cents. -/
def largeAmountThreshold : Int := 1000000

/-- `INTERVAL '1 hour'` in seconds. -/
def frequencyWindow : Int := 3600

/-- The recent-payment count above which `high_frequency` fires. -/
def frequencyLimit : Nat := 5

/-- `SELECT COUNT(*) FROM payments WHERE from_account_id = $1 AND
created_at > NOW() - INTERVAL '1 hour'`. -/
def recentPaymentCount (ps : List Payment) (fromAccountId : Nat) (now : Int) :
    Nat :=
  (ps.filter (fun p =>
    p.fromAccountId == fromAccountId &&
      decide (now - frequencyWindow < p.createdAt))).length

/-- `detectFraud(paymentData, userId)`: collects the `large_amount` and
`high_frequency` risk factors, scores 25 per factor, and requires review when
the score is strictly above 50.  A pure function of the payments table, the
source account, the amount and the clock. -/
def detectFraud (ps : List Payment) (fromAccountId : Nat) (amount : Int)
    (now : Int) : FraudResult :=
  let riskFactors :=
    (if amount > largeAmountThreshold then ["large_amount"] else []) ++
      (if recentPaymentCount ps fromAccountId now > frequencyLimit then
        ["high_frequency"] else [])
  let riskScore := riskFactors.length * 25
  { riskScore := riskScore, riskFactors := riskFactors,
    requiresReview := riskScore > 50 }

/-- Body of `POST /` (create payment) after Joi validation; fields not read
by the embedded logic (currency, payment type, description, external payee)
are omitted. -/
structure PaymentRequest where
  fromAccountId : Nat
  toAccountId : Option Nat
  amount : Int
  scheduledAt : Option Int
deriving DecidableEq, Repr

/-- `paymentSchema`: positive integer source account and positive amount. -/
def validPaymentRequest (r : PaymentRequest) : Bool :=
  0 < r.fromAccountId && 0 < r.amount

/-- Payment-service error outcomes surfaced before any mutation. -/
inductive PayError
  | validationFailed
  | accessDenied
deriving DecidableEq, Repr

/-- State owned by the payment service: the `payments` table plus the
`payment.processing` queue the execution path consumes. -/
structure PaymentService where
  payments : List Payment
  processingQueue : List Nat
deriving DecidableEq, Repr

/-- `paymentData.scheduledAt && new Date(paymentData.scheduledAt) > new Date()`:
a scheduled-at timestamp is present and strictly in the future. -/
def isScheduledFuture (r : PaymentRequest) (now : Int) : Bool :=
  match r.scheduledAt with
  | some t => decide (now < t)
  | none => false

/-- `const status = isScheduled ? 'scheduled' :
(fraudCheck.requiresReview ? 'pending_review' : 'processing')`. -/
def paymentStatusFor (isScheduled requiresReview : Bool) : PaymentStatus :=
  if isScheduled then .scheduled
  else if requiresReview then .pendingReview
  else .processing

/-- The `payments` row `POST /` inserts. -/
def newPayment (r : PaymentRequest) (paymentId : Nat) (now : Int)
    (status : PaymentStatus) (riskScore : Nat) : Payment :=
  ⟨paymentId, r.fromAccountId, r.toAccountId, r.amount, status, r.scheduledAt,
    riskScore, now⟩

/-- `POST /` (create payment): validation, source ownership, `detectFraud`,
the three-way status assignment, the payment row insert, and — only when the
payment starts in `processing` — an immediate `sendToQueue('payment.processing')`
hand-off to the execution path. -/
def createPayment (own : Ownership) (svc : PaymentService) (userId : Nat)
    (r : PaymentRequest) (paymentId : Nat) (now : Int) :
    Except PayError (PaymentService × Payment) :=
  if validPaymentRequest r then
    if ownsAccount own r.fromAccountId userId then
      let fraudCheck := detectFraud svc.payments r.fromAccountId r.amount now
      let isScheduled := isScheduledFuture r now
      let status := paymentStatusFor isScheduled fraudCheck.requiresReview
      let payment := newPayment r paymentId now status fraudCheck.riskScore
      let queue :=
        if !isScheduled && !fraudCheck.requiresReview then
          svc.processingQueue ++ [paymentId]
        else svc.processingQueue
      .ok ({ payments := svc.payments ++ [payment], processingQueue := queue },
        payment)
    else .error .accessDenied
  else .error .validationFailed

/-- The `DELETE /:paymentId` row predicate:
`p.id = $1 AND p.from_account_id = ao.account_id AND ao.user_id = $2 AND
p.status IN ('scheduled', 'pending_review')`. -/
def cancelMatches (own : Ownership) (paymentId userId : Nat) (p : Payment) :
    Bool :=
  p.paymentId == paymentId && ownsAccount own p.fromAccountId userId &&
    (p.status == PaymentStatus.scheduled ||
      p.status == PaymentStatus.pendingReview)

/-- Outcome of `DELETE /:paymentId`: the cancelled row, or the 404
`'Payment not found or cannot be cancelled'` response. -/
inductive CancelOutcome
  | cancelled (p : Payment)
  | notFoundOrNotCancellable
deriving DecidableEq, Repr

/-- `DELETE /:paymentId` (cancel payment): a single `UPDATE ... SET status =
'cancelled' ... RETURNING p.*` guarded by `cancelMatches`; zero updated rows
is the 404 response.  The route issues no ledger queries, so it is passed
the ledger state unchanged. -/
def cancelPayment (own : Ownership) (ledger : LedgerState)
    (svc : PaymentService) (paymentId userId : Nat) :
    LedgerState × PaymentService × CancelOutcome :=
  match svc.payments.find? (cancelMatches own paymentId userId) with
  | some p =>
    (ledger,
      { svc with payments := svc.payments.map (fun q =>
          if cancelMatches own paymentId userId q then
            { q with status := PaymentStatus.cancelled }
          else q) },
      .cancelled { p with status := PaymentStatus.cancelled })
  | none => (ledger, svc, .notFoundOrNotCancellable)

/-- `status = 'scheduled' AND scheduled_at <= NOW()` (a NULL `scheduled_at`
compares as unknown, selecting nothing). -/
def duePayment (p : Payment) (now : Int) : Bool :=
  p.status == PaymentStatus.scheduled &&
    (match p.scheduledAt with
     | some t => decide (t ≤ now)
     | none => false)

/-- One tick of the `cron.schedule('* * * * *', ...)` job: select every
payment that is currently `scheduled` and due, and send each one to the
`payment.processing` queue.  The tick reads the payments table afresh and
does not itself modify any payment row. -/
def schedulerTick (svc : PaymentService) (now : Int) : PaymentService :=
  { svc with processingQueue := svc.processingQueue ++
      ((svc.payments.filter (fun p => duePayment p now)).map
        (fun p => p.paymentId)) }

example :
    detectFraud [] 1 2000000 0 =
      ⟨25, ["large_amount"], false⟩ := by
  decide

example :
    (schedulerTick ⟨[⟨1, 1, none, 100, .scheduled, some 5, 0, 0⟩], []⟩ 10
      ).processingQueue = [1] := by
  decide

/-! ## Helper lemmas -/

theorem lookup_upsert (bs : Balances) (a : Nat) (insVal delta : Int) (x : Nat) :
    lookupBalance (upsertBalance bs a insVal delta) x =
      if x = a then
        (match lookupBalance bs a with
         | some b => some (b + delta)
         | none => some insVal)
      else lookupBalance bs x := by
  induction bs with
  | nil =>
    simp only [upsertBalance, lookupBalance]
    by_cases hax : a = x
    · subst hax
      simp
    · rw [if_neg hax, if_neg (fun hh => hax hh.symm)]
  | cons hd tl ih =>
    obtain ⟨k, v⟩ := hd
    by_cases hka : k = a
    · subst hka
      simp only [upsertBalance, if_pos rfl, lookupBalance]
      by_cases hxk : x = k
      · subst hxk
        simp
      · have hkx : ¬ k = x := fun hh => hxk hh.symm
        simp [hxk, hkx]
    · simp only [upsertBalance, if_neg hka, lookupBalance, ih]
      by_cases hkx : k = x
      · have hxa : ¬ x = a := fun hh => hka (hkx.trans hh)
        simp [hkx, hxa]
      · by_cases hxa : x = a
        · simp [hkx, hxa, hka]
        · simp [hkx, hxa]

theorem balanceOr0_upsert (bs : Balances) (a : Nat) (insVal delta : Int)
    (x : Nat) (h : insVal = delta ∨ (lookupBalance bs a).isSome) :
    balanceOr0 (upsertBalance bs a insVal delta) x =
      balanceOr0 bs x + (if x = a then delta else 0) := by
  unfold balanceOr0
  rw [lookup_upsert]
  by_cases hxa : x = a
  · rw [if_pos hxa, if_pos hxa, hxa]
    cases hl : lookupBalance bs a with
    | none =>
      rcases h with h | h
      · simp [h]
      · rw [hl] at h
        simp at h
    | some b => simp
  · rw [if_neg hxa, if_neg hxa]
    simp

theorem signedSum_append (l₁ l₂ : List LedgerEntry) (a : Nat) :
    signedSum (l₁ ++ l₂) a = signedSum l₁ a + signedSum l₂ a := by
  simp [signedSum, List.filter_append]

theorem signedSum_single (e : LedgerEntry) (a : Nat) :
    signedSum [e] a = if e.accountId = a then signedAmount e else 0 := by
  by_cases h : e.accountId = a <;>
    simp [signedSum, List.filter_cons, h]

theorem verify_ok_lookup {bs : Balances} {a : Nat} {amt b : Int}
    {t : Direction} (h : verifyAccountBalance bs a amt t = .ok b) :
    lookupBalance bs a = some b := by
  unfold verifyAccountBalance at h
  cases hl : lookupBalance bs a with
  | none =>
    simp [hl] at h
  | some c =>
    simp only [hl] at h
    by_cases hc : t = Direction.debit ∧ c < amt
    · simp [hc] at h
    · simp [hc] at h
      rw [h]

theorem verify_debit_ok_iff (bs : Balances) (a : Nat) (amt b : Int) :
    (verifyAccountBalance bs a amt .debit = .ok b ↔
      lookupBalance bs a = some b ∧ amt ≤ b) := by
  constructor
  · intro h
    have hl := verify_ok_lookup h
    refine ⟨hl, ?_⟩
    by_contra hgt
    push_neg at hgt
    simp [verifyAccountBalance, hl, hgt] at h
  · rintro ⟨hl, hle⟩
    have hnlt : ¬ b < amt := by omega
    simp [verifyAccountBalance, hl, hnlt]

/-- Successful `POST /` inverted: the guards held and the committed state is
`applyTx`. -/
theorem createTransaction_ok {own : Ownership} {st : LedgerState}
    {userId : Nat} {r : TxRequest} {entryId : Nat}
    {st' : LedgerState} {e : LedgerEntry}
    (h : createTransaction own st userId r entryId = .ok (st', e)) :
    st' = applyTx st r entryId ∧ e = txEntry r entryId := by
  unfold createTransaction at h
  split at h
  · split at h
    · split at h
      · split at h
        · cases h
        · cases h
          exact ⟨rfl, rfl⟩
      · cases h
        exact ⟨rfl, rfl⟩
    · cases h
  · cases h

/-- Successful `POST /transfer` inverted: the guards held (in particular the
source balance row exists and covers the amount) and the committed state is
`applyTransfer`. -/
theorem transfer_ok {own : Ownership} {st : LedgerState} {userId : Nat}
    {r : TransferRequest} {transferId debitEntryId creditEntryId : Nat}
    {st' : LedgerState} {d c : LedgerEntry}
    (h : transfer own st userId r transferId debitEntryId creditEntryId =
      .ok (st', d, c)) :
    validTransferRequest r = true ∧
      ownsAccount own r.fromAccountId userId = true ∧
      (∃ b, lookupBalance st.balances r.fromAccountId = some b ∧
        r.amount ≤ b) ∧
      st' = applyTransfer st r transferId debitEntryId creditEntryId ∧
      d = transferDebitEntry r transferId debitEntryId ∧
      c = transferCreditEntry r transferId creditEntryId := by
  by_cases hv : validTransferRequest r
  · by_cases ho : ownsAccount own r.fromAccountId userId
    · unfold transfer at h
      rw [if_pos hv, if_pos ho] at h
      cases hverify : verifyAccountBalance st.balances r.fromAccountId
          r.amount .debit with
      | error e =>
        simp only [hverify] at h
        cases h
      | ok b =>
        simp only [hverify] at h
        cases h
        have hvb := (verify_debit_ok_iff st.balances r.fromAccountId r.amount
          b).mp hverify
        exact ⟨hv, ho, ⟨b, hvb.1, hvb.2⟩, rfl, rfl, rfl⟩
    · simp [transfer, hv, ho] at h
  · simp [transfer, hv] at h

theorem balanceOr0_applyTx (st : LedgerState) (r : TxRequest) (entryId x : Nat) :
    balanceOr0 (applyTx st r entryId).balances x =
      balanceOr0 st.balances x +
        (if x = r.accountId then txDelta r.type r.amount else 0) :=
  balanceOr0_upsert _ _ _ _ _ (Or.inl rfl)

theorem signedSum_applyTx (st : LedgerState) (r : TxRequest) (entryId x : Nat) :
    signedSum (applyTx st r entryId).entries x =
      signedSum st.entries x +
        (if x = r.accountId then txDelta r.type r.amount else 0) := by
  show signedSum (st.entries ++ [txEntry r entryId]) x = _
  rw [signedSum_append, signedSum_single]
  by_cases hx : x = r.accountId
  · rw [if_pos hx, if_pos (show (txEntry r entryId).accountId = x from hx.symm)]
    rfl
  · rw [if_neg hx,
      if_neg (show ¬ (txEntry r entryId).accountId = x from
        fun hh => hx hh.symm)]

theorem balanceOr0_applyTransfer (st : LedgerState) (r : TransferRequest)
    (transferId debitEntryId creditEntryId x : Nat)
    (hsrc : (lookupBalance st.balances r.fromAccountId).isSome) :
    balanceOr0 (applyTransfer st r transferId debitEntryId creditEntryId
        ).balances x =
      balanceOr0 st.balances x +
        (if x = r.fromAccountId then -r.amount else 0) +
        (if x = r.toAccountId then r.amount else 0) := by
  show balanceOr0 (upsertBalance
    (upsertBalance st.balances r.fromAccountId r.amount (-r.amount))
    r.toAccountId r.amount r.amount) x = _
  rw [balanceOr0_upsert _ _ _ _ _ (Or.inl rfl),
    balanceOr0_upsert _ _ _ _ _ (Or.inr hsrc)]

theorem signedSum_applyTransfer (st : LedgerState) (r : TransferRequest)
    (transferId debitEntryId creditEntryId x : Nat) :
    signedSum (applyTransfer st r transferId debitEntryId creditEntryId
        ).entries x =
      signedSum st.entries x +
        (if x = r.fromAccountId then -r.amount else 0) +
        (if x = r.toAccountId then r.amount else 0) := by
  show signedSum (st.entries ++
    [transferDebitEntry r transferId debitEntryId,
     transferCreditEntry r transferId creditEntryId]) x = _
  rw [show [transferDebitEntry r transferId debitEntryId,
      transferCreditEntry r transferId creditEntryId] =
      [transferDebitEntry r transferId debitEntryId] ++
        [transferCreditEntry r transferId creditEntryId] from rfl,
    ← List.append_assoc, signedSum_append, signedSum_append,
    signedSum_single, signedSum_single]
  have hd : (transferDebitEntry r transferId debitEntryId).accountId =
      r.fromAccountId := rfl
  have hc : (transferCreditEntry r transferId creditEntryId).accountId =
      r.toAccountId := rfl
  have hsd : signedAmount (transferDebitEntry r transferId debitEntryId) =
      -r.amount := rfl
  have hsc : signedAmount (transferCreditEntry r transferId creditEntryId) =
      r.amount := rfl
  rw [hd, hc, hsd, hsc]
  by_cases h1 : x = r.fromAccountId <;> by_cases h2 : x = r.toAccountId
  · rw [if_pos h1, if_pos h2, if_pos h1.symm, if_pos h2.symm]
  · rw [if_pos h1, if_neg h2, if_pos h1.symm,
      if_neg (fun hh => h2 hh.symm)]
  · rw [if_neg h1, if_pos h2, if_neg (fun hh => h1 hh.symm), if_pos h2.symm]
  · rw [if_neg h1, if_neg h2, if_neg (fun hh => h1 hh.symm),
      if_neg (fun hh => h2 hh.symm)]

/-- The §3 ledger-store invariant: every account's balance (a missing row
read as zero) is the signed sum of its committed entries. -/
def balanceInvariant (st : LedgerState) : Prop :=
  ∀ a, balanceOr0 st.balances a = signedSum st.entries a

theorem applyLedgerOp_preserves (own : Ownership) (st : LedgerState)
    (op : LedgerOp) (h : balanceInvariant st) :
    balanceInvariant (applyLedgerOp own st op) := by
  cases op with
  | tx u r e =>
    simp only [applyLedgerOp]
    cases hres : createTransaction own st u r e with
    | error err => exact h
    | ok out =>
      obtain ⟨st', entry⟩ := out
      obtain ⟨hst', -⟩ := createTransaction_ok hres
      intro a
      show balanceOr0 st'.balances a = signedSum st'.entries a
      rw [hst', balanceOr0_applyTx, signedSum_applyTx, h a]
  | xfer u r t d c =>
    simp only [applyLedgerOp]
    cases hres : transfer own st u r t d c with
    | error err => exact h
    | ok out =>
      obtain ⟨st', dEntry, cEntry⟩ := out
      obtain ⟨-, -, ⟨b, hb, -⟩, hst', -, -⟩ := transfer_ok hres
      intro a
      show balanceOr0 st'.balances a = signedSum st'.entries a
      have hsrc : (lookupBalance st.balances r.fromAccountId).isSome := by
        rw [hb]
        rfl
      rw [hst', balanceOr0_applyTransfer _ _ _ _ _ _ hsrc,
        signedSum_applyTransfer, h a]

theorem runLedgerOps_preserves (own : Ownership) (ops : List LedgerOp)
    (st : LedgerState) (h : balanceInvariant st) :
    balanceInvariant (runLedgerOps own st ops) := by
  induction ops generalizing st with
  | nil => exact h
  | cons op rest ih =>
    exact ih (applyLedgerOp own st op) (applyLedgerOp_preserves own st op h)

theorem balanceInvariant_initial : balanceInvariant LedgerState.initial := by
  intro a
  rfl

/-! ## Payment-side helper lemmas -/

/-- Successful `POST /` (create payment) inverted. -/
theorem createPayment_ok {own : Ownership} {svc : PaymentService}
    {userId : Nat} {r : PaymentRequest} {paymentId : Nat} {now : Int}
    {svc' : PaymentService} {p : Payment}
    (h : createPayment own svc userId r paymentId now = .ok (svc', p)) :
    validPaymentRequest r = true ∧
      ownsAccount own r.fromAccountId userId = true ∧
      p = newPayment r paymentId now
        (paymentStatusFor (isScheduledFuture r now)
          (detectFraud svc.payments r.fromAccountId r.amount now
            ).requiresReview)
        (detectFraud svc.payments r.fromAccountId r.amount now).riskScore ∧
      svc'.payments = svc.payments ++ [p] ∧
      svc'.processingQueue =
        (if !isScheduledFuture r now &&
            !(detectFraud svc.payments r.fromAccountId r.amount now
              ).requiresReview then
          svc.processingQueue ++ [paymentId]
        else svc.processingQueue) := by
  by_cases hv : validPaymentRequest r
  · by_cases ho : ownsAccount own r.fromAccountId userId
    · unfold createPayment at h
      rw [if_pos hv, if_pos ho] at h
      cases h
      exact ⟨hv, ho, rfl, rfl, rfl⟩
    · simp [createPayment, hv, ho] at h
  · simp [createPayment, hv] at h

/-- The queue hand-off fires exactly when the assigned status is
`processing`. -/
theorem paymentStatusFor_processing_iff (isScheduled requiresReview : Bool) :
    ((!isScheduled && !requiresReview) = true ↔
      paymentStatusFor isScheduled requiresReview = .processing) := by
  cases isScheduled <;> cases requiresReview <;> simp [paymentStatusFor]

/-- `find?` by payment id commutes with an id-preserving row update. -/
theorem find_id_map (ps : List Payment) (pid : Nat) (f : Payment → Payment)
    (hf : ∀ q, (f q).paymentId = q.paymentId) :
    (ps.map f).find? (fun q => q.paymentId == pid) =
      (ps.find? (fun q => q.paymentId == pid)).map f := by
  induction ps with
  | nil => rfl
  | cons q rest ih =>
    simp only [List.map_cons, List.find?_cons]
    rw [hf q]
    cases hq : (q.paymentId == pid) with
    | true => rfl
    | false => exact ih

/-- If row `p` is the row `DELETE /:paymentId` addresses (first row with the
requested id, the id unique) and `p` satisfies the full update predicate,
`find?` over the predicate returns `p`. -/
theorem cancel_find_eq (own : Ownership) (pid uid : Nat) (ps : List Payment)
    (p : Payment)
    (hfind : ps.find? (fun q => q.paymentId == pid) = some p)
    (huniq : ∀ q ∈ ps, q.paymentId = pid → q = p)
    (hm : cancelMatches own pid uid p = true) :
    ps.find? (cancelMatches own pid uid) = some p := by
  induction ps with
  | nil => cases hfind
  | cons q rest ih =>
    rw [List.find?_cons] at hfind ⊢
    cases hq : (q.paymentId == pid) with
    | true =>
      rw [hq] at hfind
      cases hfind
      rw [hm]
    | false =>
      rw [hq] at hfind
      have hmq : cancelMatches own pid uid q = false := by
        unfold cancelMatches
        rw [hq]
        rfl
      rw [hmq]
      exact ih hfind (fun q' hq' hid => huniq q' (List.mem_cons_of_mem q hq') hid)

/-- If the addressed row does not satisfy the update predicate (and the id is
unique), no row does: the `UPDATE` touches zero rows. -/
theorem cancel_find_none (own : Ownership) (pid uid : Nat) (ps : List Payment)
    (p : Payment)
    (huniq : ∀ q ∈ ps, q.paymentId = pid → q = p)
    (hm : cancelMatches own pid uid p = false) :
    ps.find? (cancelMatches own pid uid) = none := by
  rw [List.find?_eq_none]
  intro q hq hmq
  have hid : q.paymentId = pid := by
    have := hmq
    unfold cancelMatches at this
    cases hbeq : (q.paymentId == pid) with
    | true => exact beq_iff_eq.mp hbeq
    | false =>
      rw [hbeq] at this
      cases this
  have : q = p := huniq q hq hid
  rw [this, hm] at hmq
  cases hmq

/-- The status of the first `payments` row carrying a given id. -/
def paymentStatusOf (svc : PaymentService) (pid : Nat) : Option PaymentStatus :=
  (svc.payments.find? (fun q => q.paymentId == pid)).map (fun q => q.status)

/-- Occurrences of an id in the mapped-out id list, counted by rows. -/
theorem count_map_paymentId (ps : List Payment) (pid : Nat) :
    (ps.map (fun p => p.paymentId)).count pid =
      ps.countP (fun p => p.paymentId == pid) := by
  induction ps with
  | nil => rfl
  | cons q rest ih =>
    simp only [List.map_cons, List.count_cons, List.countP_cons, ih]

/-- `duePayment` unfolded to the spec's wording: currently `scheduled` with an
elapsed `scheduledAt`. -/
theorem duePayment_iff (p : Payment) (now : Int) :
    (duePayment p now = true ↔
      p.status = .scheduled ∧ ∃ t, p.scheduledAt = some t ∧ t ≤ now) := by
  unfold duePayment
  rw [Bool.and_eq_true, beq_iff_eq]
  cases hs : p.scheduledAt with
  | none => simp
  | some t => simp

/-! ## Claim C1 -/

/-- Claim C1, as frozen, fails on a self-transfer: `POST /transfer` never
compares the two account ids, so a transfer from an account to itself
succeeds, creates both legs, and leaves the source balance unchanged rather
than decreased by the amount. -/
theorem c1_counterexample :
    (transfer [(1, 7)] ⟨[(1, 1000)], []⟩ 7 ⟨1, 1, 100, "self"⟩ 90 91 92
      ).isOk = true ∧
      lookupBalance (applyLedgerOp [(1, 7)] ⟨[(1, 1000)], []⟩
        (.xfer 7 ⟨1, 1, 100, "self"⟩ 90 91 92)).balances 1 = some 1000 ∧
      ¬ ((1000 : Int) - 100 = 1000) := by
  refine ⟨?_, ?_, ?_⟩ <;> decide

/-- Claim C1 (amended: the two accounts distinct): every successful transfer
appends exactly two entries — a debit on the source and a credit on the
destination, of the same amount, sharing the transfer's reference id, the
debit amount plus the negated credit amount being zero — and, when source
and destination differ, decreases the source balance by the amount and
increases the destination balance by the amount.  (A self-transfer still
creates both legs but leaves the balance unchanged.) -/
theorem c1_transfer_double_entry (own : Ownership) (st : LedgerState)
    (userId : Nat) (r : TransferRequest) (tid did cid : Nat)
    (st' : LedgerState) (d c : LedgerEntry) (b0 : Int)
    (h : transfer own st userId r tid did cid = .ok (st', d, c))
    (hb : lookupBalance st.balances r.fromAccountId = some b0)
    (hne : r.fromAccountId ≠ r.toAccountId) :
    st'.entries = st.entries ++ [d, c] ∧
      d.accountId = r.fromAccountId ∧ d.direction = .debit ∧
      c.accountId = r.toAccountId ∧ c.direction = .credit ∧
      d.amount = r.amount ∧ c.amount = r.amount ∧
      d.amount + (-c.amount) = 0 ∧
      d.referenceId = some tid ∧ c.referenceId = some tid ∧
      lookupBalance st'.balances r.fromAccountId = some (b0 - r.amount) ∧
      balanceOr0 st'.balances r.toAccountId =
        balanceOr0 st.balances r.toAccountId + r.amount := by
  obtain ⟨-, -, -, hst', hd, hc⟩ := transfer_ok h
  subst hst'
  subst hd
  subst hc
  have hfrom : lookupBalance
      (applyTransfer st r tid did cid).balances r.fromAccountId =
        some (b0 - r.amount) := by
    show lookupBalance (upsertBalance
      (upsertBalance st.balances r.fromAccountId r.amount (-r.amount))
      r.toAccountId r.amount r.amount) r.fromAccountId = _
    rw [lookup_upsert, if_neg hne, lookup_upsert, if_pos rfl, hb,
      sub_eq_add_neg]
  have hto : balanceOr0
      (applyTransfer st r tid did cid).balances r.toAccountId =
        balanceOr0 st.balances r.toAccountId + r.amount := by
    show balanceOr0 (upsertBalance
      (upsertBalance st.balances r.fromAccountId r.amount (-r.amount))
      r.toAccountId r.amount r.amount) r.toAccountId = _
    rw [balanceOr0_upsert _ _ _ _ _ (Or.inl rfl), if_pos rfl,
      balanceOr0_upsert _ _ _ _ _ (Or.inr (by rw [hb]; rfl)),
      if_neg (fun hh => hne hh.symm)]
    ring
  exact ⟨rfl, rfl, rfl, rfl, rfl, rfl, rfl,
    by show r.amount + -r.amount = 0; ring, rfl, rfl, hfrom, hto⟩

/-- Witness for C1 at a concrete transfer of 400 from account 1 (balance
1000) to account 2. -/
theorem c1_transfer_double_entry_witness :
    (applyTransfer ⟨[(1, 1000)], []⟩ ⟨1, 2, 400, "rent"⟩ 90 91 92).entries =
      ([] : List LedgerEntry) ++
        [transferDebitEntry ⟨1, 2, 400, "rent"⟩ 90 91,
         transferCreditEntry ⟨1, 2, 400, "rent"⟩ 90 92] :=
  (c1_transfer_double_entry [(1, 7)] ⟨[(1, 1000)], []⟩ 7 ⟨1, 2, 400, "rent"⟩
    90 91 92 (applyTransfer ⟨[(1, 1000)], []⟩ ⟨1, 2, 400, "rent"⟩ 90 91 92)
    (transferDebitEntry ⟨1, 2, 400, "rent"⟩ 90 91)
    (transferCreditEntry ⟨1, 2, 400, "rent"⟩ 90 92) 1000
    (by decide) (by decide) (by decide)).1

/-! ## Claim C2 -/

/-- Claim C2: after any sequence of committed operations (single-leg
transactions and transfers) starting from the empty database, every
account's stored balance — a missing row read as zero — equals the signed
sum (credits positive, debits negative) of all committed ledger entries for
that account. -/
theorem c2_balance_equals_signed_sum (own : Ownership) (ops : List LedgerOp)
    (a : Nat) :
    balanceOr0 (runLedgerOps own LedgerState.initial ops).balances a =
      signedSum (runLedgerOps own LedgerState.initial ops).entries a :=
  runLedgerOps_preserves own ops LedgerState.initial balanceInvariant_initial a

/-! ## Claim C3 -/

/-- Claim C3: a transfer whose amount strictly exceeds the source balance
fails with InsufficientFunds and (rolling back) leaves the whole ledger
state unchanged — zero entries created, source balance untouched; the
failure happens exactly when amount exceeds balance, so a transfer of the
exact balance does not fail with InsufficientFunds. -/
theorem c3_insufficient_funds (own : Ownership) (st : LedgerState)
    (userId : Nat) (r : TransferRequest) (tid did cid : Nat) (b : Int)
    (hv : validTransferRequest r = true)
    (ho : ownsAccount own r.fromAccountId userId = true)
    (hb : lookupBalance st.balances r.fromAccountId = some b) :
    ((transfer own st userId r tid did cid = .error .insufficientFunds) ↔
        b < r.amount) ∧
      (b < r.amount →
        applyLedgerOp own st (.xfer userId r tid did cid) = st) ∧
      (b = r.amount →
        ¬ transfer own st userId r tid did cid = .error .insufficientFunds) := by
  by_cases hlt : b < r.amount
  · have htr : transfer own st userId r tid did cid =
        .error .insufficientFunds := by
      unfold transfer verifyAccountBalance
      rw [if_pos hv, if_pos ho, hb]
      simp [hlt]
    refine ⟨⟨fun _ => hlt, fun _ => htr⟩, fun _ => ?_, fun hbe => ?_⟩
    · simp [applyLedgerOp, htr]
    · omega
  · have htr : transfer own st userId r tid did cid =
        .ok (applyTransfer st r tid did cid,
          transferDebitEntry r tid did, transferCreditEntry r tid cid) := by
      unfold transfer verifyAccountBalance
      rw [if_pos hv, if_pos ho, hb]
      simp [hlt]
    refine ⟨⟨fun hcon => ?_, fun hcon => absurd hcon hlt⟩,
      fun hcon => absurd hcon hlt, fun hbe hcon => ?_⟩
    · rw [htr] at hcon
      cases hcon
    · rw [htr] at hcon
      cases hcon

/-- Witness for C3: a transfer of 1500 against a balance of 1000 fails with
InsufficientFunds. -/
theorem c3_insufficient_funds_witness :
    transfer [(1, 7)] ⟨[(1, 1000)], []⟩ 7 ⟨1, 2, 1500, "big"⟩ 90 91 92 =
      .error .insufficientFunds := by
  have h := c3_insufficient_funds [(1, 7)] ⟨[(1, 1000)], []⟩ 7
    ⟨1, 2, 1500, "big"⟩ 90 91 92 1000 (by decide) (by decide) (by decide)
  exact h.1.mpr (by decide)

/-! ## Claim C4 -/

/-- Two concurrent debit transfers out of account 1 (balance 1000, each for
600): the interleaving check₁, check₂, commit₁, commit₂. -/
def c4Final : ConcState :=
  runSchedule [(1, 7)]
    ⟨⟨[(1, 1000)], []⟩,
      ⟨7, ⟨1, 2, 600, "to B"⟩, 80, 81, 82, .ready⟩,
      ⟨7, ⟨1, 3, 600, "to C"⟩, 85, 86, 87, .ready⟩⟩
    [false, true, false, true]

/-- Claim C4 fails on the code: `verifyAccountBalance` reads the balance on
a separate connection before the commit, so under the interleaving where
both checks precede both commits, two individually affordable but jointly
overdrawing transfers both pass the check and both commit — the claim's
"exactly one succeeds" is violated and the balance goes to −200 (the
individual affordability of each request is recorded by the two
`transferCheck` conjuncts). -/
theorem c4_both_transfers_commit :
    c4Final.th1.phase = .finished true ∧
      c4Final.th2.phase = .finished true ∧
      lookupBalance c4Final.ledger.balances 1 = some (-200) ∧
      transferCheck [(1, 7)] [(1, 1000)] 7 ⟨1, 2, 600, "to B"⟩ = true ∧
      transferCheck [(1, 7)] [(1, 1000)] 7 ⟨1, 3, 600, "to C"⟩ = true := by
  refine ⟨?_, ?_, ?_, ?_, ?_⟩ <;> decide

/-! ## Claim C5 -/

/-- Claim C5: a created payment starts `scheduled` exactly when its
scheduled-at is present and strictly in the future; `pending_review` exactly
when it is not scheduled and the risk check requires review; `processing`
exactly otherwise — and it is handed to the `payment.processing` queue
exactly when it starts `processing`. -/
theorem c5_payment_initial_status (own : Ownership) (svc : PaymentService)
    (userId : Nat) (r : PaymentRequest) (paymentId : Nat) (now : Int)
    (svc' : PaymentService) (p : Payment)
    (h : createPayment own svc userId r paymentId now = .ok (svc', p)) :
    (p.status = .scheduled ↔ isScheduledFuture r now = true) ∧
      (p.status = .pendingReview ↔
        (isScheduledFuture r now = false ∧
          (detectFraud svc.payments r.fromAccountId r.amount now
            ).requiresReview = true)) ∧
      (p.status = .processing ↔
        (isScheduledFuture r now = false ∧
          (detectFraud svc.payments r.fromAccountId r.amount now
            ).requiresReview = false)) ∧
      svc'.processingQueue =
        (if p.status = .processing then svc.processingQueue ++ [paymentId]
         else svc.processingQueue) := by
  obtain ⟨-, -, hp, -, hq⟩ := createPayment_ok h
  have hstatus : p.status =
      paymentStatusFor (isScheduledFuture r now)
        (detectFraud svc.payments r.fromAccountId r.amount now
          ).requiresReview := by
    rw [hp]
    rfl
  rw [hstatus, hq]
  cases hs : isScheduledFuture r now <;>
    cases hr : (detectFraud svc.payments r.fromAccountId r.amount now
        ).requiresReview <;>
      simp [paymentStatusFor]

/-- Witness for C5: an immediate low-risk payment starts `processing`. -/
theorem c5_payment_initial_status_witness :
    ((⟨11, 1, some 2, 500, .processing, none, 0, 0⟩ : Payment).status =
        .processing ↔
      (isScheduledFuture ⟨1, some 2, 500, none⟩ 0 = false ∧
        (detectFraud [] 1 500 0).requiresReview = false)) :=
  (c5_payment_initial_status [(1, 7)] ⟨[], []⟩ 7 ⟨1, some 2, 500, none⟩ 11 0
    ⟨[⟨11, 1, some 2, 500, .processing, none, 0, 0⟩], [11]⟩
    ⟨11, 1, some 2, 500, .processing, none, 0, 0⟩ (by decide)).2.2.1

/-! ## Claim C6 -/

/-- Claim C6: for the payment row a cancellation request addresses (the
owner's payment with the requested id, ids unique), cancelling while it is
`scheduled` or `pending_review` succeeds, stores status `cancelled`, and
touches no ledger state; cancelling while it is `processing`, `completed`
or `failed` fails and leaves the payments table unchanged — and the route
never touches the ledger either way. -/
theorem c6_cancel_semantics (own : Ownership) (ledger : LedgerState)
    (svc : PaymentService) (pid uid : Nat) (p : Payment)
    (hfind : svc.payments.find? (fun q => q.paymentId == pid) = some p)
    (huniq : ∀ q ∈ svc.payments, q.paymentId = pid → q = p)
    (ho : ownsAccount own p.fromAccountId uid = true) :
    ((cancelPayment own ledger svc pid uid).1 = ledger) ∧
      ((p.status = .scheduled ∨ p.status = .pendingReview) →
        ((cancelPayment own ledger svc pid uid).2.2 =
            .cancelled { p with status := .cancelled } ∧
          paymentStatusOf (cancelPayment own ledger svc pid uid).2.1 pid =
            some .cancelled)) ∧
      ((p.status = .processing ∨ p.status = .completed ∨
          p.status = .failed) →
        ((cancelPayment own ledger svc pid uid).2.2 =
            .notFoundOrNotCancellable ∧
          (cancelPayment own ledger svc pid uid).2.1 = svc)) := by
  have hid : p.paymentId = pid := by
    have hpb := List.find?_some hfind
    simp only [beq_iff_eq] at hpb
    exact hpb
  refine ⟨?_, fun hcanc => ?_, fun hterm => ?_⟩
  · unfold cancelPayment
    cases hf : svc.payments.find? (cancelMatches own pid uid) <;> rfl
  · have hm : cancelMatches own pid uid p = true := by
      unfold cancelMatches
      rw [hid, ho]
      rcases hcanc with hs | hs <;> simp [hs]
    have hfm := cancel_find_eq own pid uid svc.payments p hfind huniq hm
    constructor
    · unfold cancelPayment
      rw [hfm]
    · unfold paymentStatusOf cancelPayment
      rw [hfm]
      show ((svc.payments.map (fun q =>
          if cancelMatches own pid uid q then
            { q with status := PaymentStatus.cancelled }
          else q)).find? (fun q => q.paymentId == pid)).map
          (fun q => q.status) = some .cancelled
      rw [find_id_map _ _ _
        (fun q => by by_cases hq : cancelMatches own pid uid q <;> simp [hq]),
        hfind]
      simp [hm]
  · have hm : cancelMatches own pid uid p = false := by
      unfold cancelMatches
      rcases hterm with hs | hs | hs <;> rw [hs] <;> simp
    have hfm := cancel_find_none own pid uid svc.payments p huniq hm
    constructor
    · unfold cancelPayment
      rw [hfm]
    · unfold cancelPayment
      rw [hfm]

/-- Witness for C6: cancelling a scheduled payment stores `cancelled`. -/
theorem c6_cancel_semantics_witness :
    paymentStatusOf (cancelPayment [(1, 7)] ⟨[], []⟩
      ⟨[⟨5, 1, none, 100, .scheduled, some 50, 0, 0⟩], []⟩ 5 7).2.1 5 =
      some .cancelled := by
  have h := c6_cancel_semantics [(1, 7)] ⟨[], []⟩
    ⟨[⟨5, 1, none, 100, .scheduled, some 50, 0, 0⟩], []⟩ 5 7
    ⟨5, 1, none, 100, .scheduled, some 50, 0, 0⟩
    (by decide) (by decide) (by decide)
  exact (h.2.1 (Or.inl rfl)).2

/-! ## Claim C7 -/

/-- Claim C7: the risk score is additive with fixed weights — 25 when the
amount exceeds the large-amount threshold, 25 when more than the configured
count of payments hit the source account within the trailing one-hour
window — it stays within [0, 100], and requiresReview holds exactly when
the score is strictly greater than 50.  (Determinism is structural: the
score is a pure function of the recorded payments, the source account, the
amount and the clock.) -/
theorem c7_risk_score_additive (ps : List Payment) (fromAccountId : Nat)
    (amount now : Int) :
    (detectFraud ps fromAccountId amount now).riskScore =
        ((if amount > largeAmountThreshold then 25 else 0) +
          (if recentPaymentCount ps fromAccountId now > frequencyLimit then
            25 else 0)) ∧
      (detectFraud ps fromAccountId amount now).riskScore ≤ 100 ∧
      ((detectFraud ps fromAccountId amount now).requiresReview = true ↔
        50 < (detectFraud ps fromAccountId amount now).riskScore) := by
  by_cases h1 : amount > largeAmountThreshold <;>
    by_cases h2 : recentPaymentCount ps fromAccountId now > frequencyLimit <;>
      simp [detectFraud, h1, h2]

/-! ## Claim C8 -/

/-- Claim C8, as frozen, fails on the code: only the source account is
checked, so a transfer to an unknown destination (no balance row for
account 2) does not fail with AccountNotFound — it succeeds and creates a
balance row for the destination. -/
theorem c8_counterexample :
    (transfer [(1, 7)] ⟨[(1, 1000)], []⟩ 7 ⟨1, 2, 500, "pay"⟩ 90 91 92
      ).isOk = true ∧
      lookupBalance ([(1, 1000)] : Balances) 2 = none ∧
      lookupBalance (applyLedgerOp [(1, 7)] ⟨[(1, 1000)], []⟩
        (.xfer 7 ⟨1, 2, 500, "pay"⟩ 90 91 92)).balances 2 = some 500 := by
  refine ⟨?_, ?_, ?_⟩ <;> decide

/-- Claim C8 (amended): a transfer fails with AccountNotFound exactly when
the SOURCE account has no balance row, and then the rolled-back state is
unchanged (no entries, no balance rows touched); an unknown destination
does not cause failure — with a known, sufficiently funded source the
transfer succeeds and creates the destination's balance row holding the
transferred amount. -/
theorem c8_account_not_found (own : Ownership) (st : LedgerState)
    (userId : Nat) (r : TransferRequest) (tid did cid : Nat)
    (hv : validTransferRequest r = true)
    (ho : ownsAccount own r.fromAccountId userId = true) :
    ((transfer own st userId r tid did cid = .error .accountNotFound) ↔
        lookupBalance st.balances r.fromAccountId = none) ∧
      (lookupBalance st.balances r.fromAccountId = none →
        applyLedgerOp own st (.xfer userId r tid did cid) = st) ∧
      (∀ b, lookupBalance st.balances r.fromAccountId = some b →
        r.amount ≤ b → lookupBalance st.balances r.toAccountId = none →
        ((transfer own st userId r tid did cid).isOk = true ∧
          lookupBalance (applyLedgerOp own st
            (.xfer userId r tid did cid)).balances r.toAccountId =
            some r.amount)) := by
  cases hl : lookupBalance st.balances r.fromAccountId with
  | none =>
    have htr : transfer own st userId r tid did cid =
        .error .accountNotFound := by
      unfold transfer verifyAccountBalance
      rw [if_pos hv, if_pos ho, hl]
    refine ⟨⟨fun _ => rfl, fun _ => htr⟩, fun _ => ?_, fun b hb => ?_⟩
    · simp [applyLedgerOp, htr]
    · cases hb
  | some b0 =>
    refine ⟨⟨fun hcon => ?_, fun hcon => ?_⟩, fun hcon => ?_,
      fun b hb hle hto => ?_⟩
    case refine_2 => cases hcon
    case refine_3 => cases hcon
    · by_cases hlt : b0 < r.amount
      · unfold transfer verifyAccountBalance at hcon
        rw [if_pos hv, if_pos ho, hl] at hcon
        simp [hlt] at hcon
      · unfold transfer verifyAccountBalance at hcon
        rw [if_pos hv, if_pos ho, hl] at hcon
        simp [hlt] at hcon
    · cases hb
      have htr : transfer own st userId r tid did cid =
          .ok (applyTransfer st r tid did cid,
            transferDebitEntry r tid did, transferCreditEntry r tid cid) := by
        unfold transfer verifyAccountBalance
        rw [if_pos hv, if_pos ho, hl]
        simp [show ¬ b0 < r.amount by omega]
      constructor
      · rw [htr]
        rfl
      · simp only [applyLedgerOp, htr]
        show lookupBalance (upsertBalance
          (upsertBalance st.balances r.fromAccountId r.amount (-r.amount))
          r.toAccountId r.amount r.amount) r.toAccountId = some r.amount
        have hne : ¬ r.toAccountId = r.fromAccountId := fun hh => by
          rw [hh, hl] at hto
          cases hto
        rw [lookup_upsert, if_pos rfl, lookup_upsert, if_neg hne, hto]

/-- Witness for C8: a transfer out of an account with no balance row fails
with AccountNotFound. -/
theorem c8_account_not_found_witness :
    transfer [(1, 7)] ⟨[], []⟩ 7 ⟨1, 2, 500, "pay"⟩ 90 91 92 =
      .error .accountNotFound := by
  have h := c8_account_not_found [(1, 7)] ⟨[], []⟩ 7 ⟨1, 2, 500, "pay"⟩
    90 91 92 (by decide) (by decide)
  exact h.1.mpr (by decide)

/-! ## Claim C9 -/

/-- One scheduled payment, due at 5, with no execution-path consumer acting
between ticks. -/
def c9Service : PaymentService :=
  ⟨[⟨1, 1, none, 100, .scheduled, some 5, 0, 0⟩], []⟩

/-- Claim C9, as frozen, fails on the code: a scheduler tick queues due
payments but never changes their status, so two ticks with no consumer
action in between hand the same due payment to the execution path twice. -/
theorem c9_counterexample :
    (schedulerTick (schedulerTick c9Service 10) 10).processingQueue.count 1 =
        2 ∧
      (schedulerTick c9Service 10).payments = c9Service.payments := by
  refine ⟨?_, ?_⟩ <;> decide

/-- Claim C9 (amended): each tick re-reads the payments table and selects
exactly the payments currently `scheduled` with an elapsed scheduled-at
(a payment moved out of `scheduled` before the tick is skipped), handing
each selected payment to the queue once per tick; the tick itself changes
no payment row, so a payment still `scheduled` at a later tick is handed
again — once per tick while due, not at most once overall. -/
theorem c9_scheduler_tick (svc : PaymentService) (now : Int) :
    ((schedulerTick svc now).payments = svc.payments) ∧
      (∀ pid, (schedulerTick svc now).processingQueue.count pid =
        svc.processingQueue.count pid +
          (svc.payments.filter (fun p => duePayment p now)).countP
            (fun p => p.paymentId == pid)) ∧
      (∀ p, p ∈ svc.payments.filter (fun q => duePayment q now) ↔
        (p ∈ svc.payments ∧ p.status = .scheduled ∧
          ∃ t, p.scheduledAt = some t ∧ t ≤ now)) := by
  refine ⟨rfl, fun pid => ?_, fun p => ?_⟩
  · show (svc.processingQueue ++
      ((svc.payments.filter (fun p => duePayment p now)).map
        (fun p => p.paymentId))).count pid = _
    rw [List.count_append, count_map_paymentId]
  · rw [List.mem_filter, duePayment_iff]

/-! ## Claim C10 -/

/-- Claim C10: the implemented risk check can only ever produce a score of
at most 50 (two factors of 25), so requiresReview is always false and a
created payment never starts in `pending_review`. -/
theorem c10_pending_review_unreachable (own : Ownership)
    (svc : PaymentService) (userId : Nat) (r : PaymentRequest)
    (paymentId : Nat) (now : Int) :
    (detectFraud svc.payments r.fromAccountId r.amount now).riskScore ≤ 50 ∧
      (detectFraud svc.payments r.fromAccountId r.amount now
        ).requiresReview = false ∧
      (createPayment own svc userId r paymentId now).toOption.map
          (fun out => out.2.status) ≠ some PaymentStatus.pendingReview := by
  have hscore : (detectFraud svc.payments r.fromAccountId r.amount now
      ).riskScore ≤ 50 := by
    by_cases h1 : r.amount > largeAmountThreshold <;>
      by_cases h2 : recentPaymentCount svc.payments r.fromAccountId now >
          frequencyLimit <;>
        simp [detectFraud, h1, h2]
  have hrev : (detectFraud svc.payments r.fromAccountId r.amount now
      ).requiresReview = false := by
    by_cases h1 : r.amount > largeAmountThreshold <;>
      by_cases h2 : recentPaymentCount svc.payments r.fromAccountId now >
          frequencyLimit <;>
        simp [detectFraud, h1, h2]
  refine ⟨hscore, hrev, ?_⟩
  cases hres : createPayment own svc userId r paymentId now with
  | error e => simp [Except.toOption]
  | ok out =>
    obtain ⟨svc', p⟩ := out
    obtain ⟨-, -, hp, -, -⟩ := createPayment_ok hres
    show some p.status ≠ some PaymentStatus.pendingReview
    rw [hp]
    show some (paymentStatusFor (isScheduledFuture r now)
      (detectFraud svc.payments r.fromAccountId r.amount now
        ).requiresReview) ≠ some PaymentStatus.pendingReview
    rw [hrev]
    cases hs : isScheduledFuture r now <;> simp [paymentStatusFor]

end Banking
